import Mathlib

/-!
# Verification of the Asana seed-data generation engine

This file gives a shallow embedding of the generation engine of the
`Seed_Data_for_Asana_RL_Environment` repository (Python sources under `src/`)
and proves or refutes the frozen specification claims about it.

Modelling conventions:

* Python `datetime` values are modelled as integers counting seconds since
  the Unix epoch (1970-01-01 00:00:00, a Thursday).  `timedelta(days=k)`
  becomes `k * secPerDay`.  `datetime.weekday()` (Monday = 0 .. Sunday = 6)
  becomes `weekday` below; day 0 of the epoch is a Thursday, hence the
  offset `+ 3`.
* Calls into the process-wide pseudo-random source (`random.randrange`,
  `random.randint`, `random.random` threshold tests, `np.random.lognormal`,
  `uuid.uuid4`) are modelled by passing the drawn value in as an explicit
  argument, together with the range constraint that the drawing primitive
  guarantees (stated as a hypothesis where a theorem needs it).
* Python `while` loops without a structural bound are modelled with an
  explicit fuel argument; `none` means the loop has not exited after that
  many iterations.
-/

namespace AsanaSeed

/-- Seconds per day; the Python `timedelta(days=1)` in the integer time model. -/
def secPerDay : ℤ := 86400

/-- Embedding of `datetime.weekday()`: Monday = 0 .. Sunday = 6.  The Unix epoch day is a
Thursday (`weekday = 3`); Python floor-divides when extracting the day index,
hence `Int.fdiv`. -/
def weekday (t : ℤ) : ℤ := (Int.fdiv t secPerDay + 3) % 7

/-- Embedding of `src/utils/dates.py`, `random_date(start_date, end_date)`:
`days_between = (end_date - start_date).days` (floor), then
`random_days = random.randrange(days_between)` and the result is
`start_date + timedelta(days=random_days)`.

`r` is the value drawn by `randrange`; `randrange(n)` can return `r` exactly
when `r < n`, and raises `ValueError` when `n ≤ 0` (equivalently: when no
valid draw exists).  The `none` branch therefore models the raising path. -/
def random_date (startDate endDate : ℤ) (r : ℕ) : Option ℤ :=
  if (r : ℤ) < Int.fdiv (endDate - startDate) secPerDay then
    some (startDate + secPerDay * r)
  else none

/-- The days count computed by `random_date` (and by every other call of
`timedelta.days` on `end - start` in the sources). -/
def daysBetween (startDate endDate : ℤ) : ℤ :=
  Int.fdiv (endDate - startDate) secPerDay

theorem weekday_nonneg (t : ℤ) : 0 ≤ weekday t :=
  Int.emod_nonneg _ (by decide)

theorem weekday_lt_seven (t : ℤ) : weekday t < 7 :=
  Int.emod_lt_of_pos _ (by decide)

theorem random_date_eq (s e : ℤ) (r : ℕ) :
    random_date s e r =
      if (r : ℤ) < (e - s) / 86400 then some (s + 86400 * r) else none := by
  simp only [random_date, secPerDay, Int.fdiv_eq_ediv _ (by decide : (0:ℤ) ≤ 86400)]

/-- C10: `random_date(start, end)` returns a value iff `end - start` is at
least one full day (otherwise `randrange` raises), and every value it can
return is `start` plus a whole number of days, strictly below `end`. -/
theorem random_date_day_granularity (s e : ℤ) :
    ((∃ r : ℕ, (random_date s e r).isSome) ↔ secPerDay ≤ e - s)
    ∧ ∀ (r : ℕ) (t : ℤ), random_date s e r = some t →
        ∃ k : ℕ, t = s + secPerDay * k ∧ t < e := by
  simp only [random_date_eq, secPerDay]
  refine ⟨⟨?_, ?_⟩, ?_⟩
  · rintro ⟨r, hr⟩
    by_cases h : (r : ℤ) < (e - s) / 86400
    · omega
    · rw [if_neg h] at hr
      simp at hr
  · intro h
    refine ⟨0, ?_⟩
    rw [if_pos (by omega)]
    rfl
  · intro r t ht
    by_cases h : (r : ℤ) < (e - s) / 86400
    · rw [if_pos h] at ht
      have heq := Option.some.inj ht
      exact ⟨r, heq.symm, by omega⟩
    · rw [if_neg h] at ht
      exact absurd ht (by simp)

/-- Witness for `random_date_day_granularity` at `start = 0`,
`end = 86400`, draw `r = 0` (which yields `some 0`). -/
theorem random_date_day_granularity_witness :
    ∃ k : ℕ, (0 : ℤ) = 0 + secPerDay * k ∧ (0 : ℤ) < 86400 :=
  (random_date_day_granularity 0 86400).2 0 0 (by decide)

/-- Embedding of `src/utils/dates.py`, body of the `while` loop in `random_weekday_date`:
`if date < end_date - timedelta(days=2): date += timedelta(days=1)
 else: date -= timedelta(days=1)`. -/
def rwStep (endDate t : ℤ) : ℤ :=
  if t < endDate - 2 * secPerDay then t + secPerDay else t - secPerDay

/-- The `while date.weekday() >= 5` loop of `random_weekday_date`, with an
explicit fuel bound; `none` means the loop has not exited after `fuel`
iterations (so `(∀ fuel, rwLoop endDate fuel t = none)` is non-termination). -/
def rwLoop (endDate : ℤ) : ℕ → ℤ → Option ℤ
  | 0, _ => none
  | fuel + 1, t => if 5 ≤ weekday t then rwLoop endDate fuel (rwStep endDate t) else some t

/-- Embedding of `src/utils/dates.py`, `random_weekday_date(start_date, end_date)`:
`date = random_date(start_date, end_date)` followed by the weekend-adjustment
loop.  `r` is the `randrange` draw inside `random_date`. -/
def random_weekday_date (startDate endDate : ℤ) (r : ℕ) (fuel : ℕ) : Option ℤ :=
  (random_date startDate endDate r).bind (rwLoop endDate fuel)

/-- The weekend-adjustment loop caught in its two-state cycle: starting from
Saturday 1970-01-03 00:00 with `end_date` = Monday 1970-01-05 12:00, the loop
alternates between that Saturday and the following Sunday forever. -/
theorem rwLoop_cycle_stuck (fuel : ℕ) :
    rwLoop 388800 fuel 172800 = none ∧ rwLoop 388800 fuel 259200 = none := by
  induction fuel with
  | zero => exact ⟨rfl, rfl⟩
  | succ n ih =>
    constructor
    · simp only [rwLoop]
      rw [if_pos (by decide), show rwStep 388800 172800 = 259200 from by decide]
      exact ih.2
    · simp only [rwLoop]
      rw [if_pos (by decide), show rwStep 388800 259200 = 172800 from by decide]
      exact ih.1

/-- C7: Refuted as stated: `random_weekday_date` does *not* terminate for
every `start < end`.  With `start` = Saturday 1970-01-03 00:00 and
`end` = Monday 1970-01-05 12:00 (`start < end`), the draw `r = 0` lands on the
Saturday; the loop then oscillates Saturday → Sunday → Saturday (the forward
shift is taken exactly when `date < end - 2 days`, which holds on the Saturday
but fails on the Sunday), so no amount of fuel makes the loop exit, even
though the contract of the function promises a weekday result. -/
theorem random_weekday_date_diverges (fuel : ℕ) :
    random_weekday_date 172800 388800 0 fuel = none := by
  have hrd : random_date 172800 388800 0 = some 172800 := by decide
  rw [random_weekday_date, hrd]
  exact (rwLoop_cycle_stuck fuel).1

/-- Witness for `random_weekday_date_diverges` at fuel 5. -/
theorem random_weekday_date_diverges_witness :
    random_weekday_date 172800 388800 0 5 = none :=
  random_weekday_date_diverges 5

/-- Embedding of `src/utils/dates.py`, weekend branch of `generate_creation_times`:
`days_to_add = (7 - dt.weekday()) % 7; if days_to_add == 0: days_to_add = 1`. -/
def weekdayShiftDays (w : ℤ) : ℤ :=
  if (7 - w) % 7 = 0 then 1 else (7 - w) % 7

/-- Embedding of `src/utils/dates.py`, the per-timestamp body of `generate_creation_times`:
a uniform draw `dt = start_date + random_seconds`, then (with probability 80%,
modelled by `shiftW = true`) weekend timestamps are shifted forward to the
next weekday, wrapping back 7 days if the shift passes `end_date`.  The
Monday–Wednesday branch of the source draws a random number and leaves `dt`
unchanged, so it coincides with the final `else`. -/
def adjustCreationTime (endDate : ℤ) (shiftW : Bool) (dt : ℤ) : ℤ :=
  if weekday dt < 3 then dt
  else if 5 ≤ weekday dt then
    if shiftW then
      if endDate < dt + weekdayShiftDays (weekday dt) * secPerDay then
        dt + weekdayShiftDays (weekday dt) * secPerDay - 7 * secPerDay
      else dt + weekdayShiftDays (weekday dt) * secPerDay
    else dt
  else dt

/-- One element of the weekday-skewed series: in `TaskGenerator.generate_tasks`
the series is drawn over `[max(project.created_at, start_date), end_date]`;
`lowerBound` stands for that maximum and `offSec` for the
`random.randint(0, int(time_span))` draw. -/
def generate_creation_time (lowerBound endDate : ℤ) (offSec : ℤ) (shiftW : Bool) : ℤ :=
  adjustCreationTime endDate shiftW (lowerBound + offSec)

/-- C5 counterexample: With the series lower bound on Saturday
1970-01-03 00:00 and `end` one day later (Sunday), offset 0 and the 80%
weekend-shift branch taken, the generated timestamp wraps back 7 days to
1970-12-29 − i.e. five days *before* the lower bound, refuting the claimed
`max(project.created_at, run.start) ≤ t` lower bound. -/
theorem creation_time_below_lower_bound :
    generate_creation_time 172800 259200 0 true = -259200
    ∧ ¬ (172800 : ℤ) ≤ generate_creation_time 172800 259200 0 true := by
  exact ⟨by decide, by decide⟩

/-- C5 amended: Every timestamp of the weekday-skewed series is ≤ the run
end date; the claimed lower bound `max(project.created_at, run.start) ≤ t`
additionally holds whenever the sampled span is at least 7 days long (the
backward wrap moves a timestamp exactly 7 days, so only spans shorter than a
week can escape below the lower bound). -/
theorem creation_time_bounds (lb endDate off : ℤ) (shiftW : Bool)
    (h0 : 0 ≤ off) (h1 : off ≤ endDate - lb) :
    generate_creation_time lb endDate off shiftW ≤ endDate
    ∧ (7 * secPerDay ≤ endDate - lb → lb ≤ generate_creation_time lb endDate off shiftW) := by
  have hw0 := weekday_nonneg (lb + off)
  have hw7 := weekday_lt_seven (lb + off)
  rw [generate_creation_time, adjustCreationTime]
  by_cases hlt : weekday (lb + off) < 3
  · rw [if_pos hlt]
    constructor <;> omega
  · rw [if_neg hlt]
    by_cases hge : 5 ≤ weekday (lb + off)
    · rw [if_pos hge]
      cases shiftW with
      | false =>
        simp only [Bool.false_eq_true, if_false]
        constructor <;> omega
      | true =>
        simp only [if_pos rfl]
        have hd : weekdayShiftDays (weekday (lb + off)) = 7 - weekday (lb + off) := by
          rw [weekdayShiftDays,
            Int.emod_eq_of_lt (by omega) (by omega), if_neg (by omega)]
        rw [hd, secPerDay]
        set w := weekday (lb + off) with hwdef
        by_cases hover : endDate < lb + off + (7 - w) * 86400
        · rw [if_pos hover]
          constructor
          · omega
          · intro h7
            omega
        · rw [if_neg hover]
          constructor <;> omega
    · rw [if_neg hge]
      constructor <;> omega

/-- Witness for `creation_time_bounds` at `lb = 0`, `end = 604800` (a 7-day
span starting at the epoch), offset 0, shift branch taken. -/
theorem creation_time_bounds_witness :
    ((0:ℤ) ≤ 0 ∧ (0:ℤ) ≤ 604800 - 0)
    ∧ (generate_creation_time 0 604800 0 true ≤ 604800
       ∧ (7 * secPerDay ≤ 604800 - 0 → (0:ℤ) ≤ generate_creation_time 0 604800 0 true)) :=
  ⟨⟨le_refl 0, by decide⟩, creation_time_bounds 0 604800 0 true (le_refl 0) (by decide)⟩

/-- Embedding of `src/utils/dates.py`, `generate_completion_date(created_at, due_date,
completed, end_date)`.  `rawCycle` models `int(np.random.lognormal(2.0, 0.8))`
(a non-negative integer; the source applies `max 1` and `min 60` itself),
`nearDue` models the 70% `random.random() < 0.7` branch and `variance` the
`random.randint(-3, 7)` draw — both drawn only when a due date exists. -/
def generate_completion_date (created : ℤ) (due : Option ℤ) (completed : Bool)
    (endDate : ℤ) (rawCycle : ℕ) (nearDue : Bool) (variance : ℤ) : Option ℤ :=
  if completed = false then none
  else
    let cycleDays : ℤ := min (max 1 (rawCycle : ℤ)) 60
    let c1 := created + cycleDays * secPerDay
    let c2 := if c1 < created then created + secPerDay else c1
    let c3 := if endDate < c2 then endDate else c2
    match due with
    | some d =>
        if nearDue then
          some (min (max (d + variance * secPerDay) (created + secPerDay)) endDate)
        else some c3
    | none => some c3

/-- C6 counterexample: The hypothesis of the claim only requires
`created_at ≤ end`; with `created_at = end = 0` a completed task (cycle-time
path, raw cycle draw 1) gets completion date `0 = end`, which is *below* the
claimed lower bound `created_at + 1 day` — the interval
`[created_at + 1 day, end]` is empty there. -/
theorem completion_date_escapes_interval :
    generate_completion_date 0 none true 0 1 false 0 = some 0
    ∧ ¬ ((0:ℤ) + secPerDay ≤ 0) := by
  exact ⟨by decide, by decide⟩

/-- C6 amended: For every completed task whose creation time is at least
one full day before the run end date, `generate_completion_date` returns a
timestamp in `[created_at + 1 day, end]`, on the cycle-time path as well as on
the 70% due-date-anchored override path (for any draws). -/
theorem completion_date_in_interval (created endDate : ℤ) (due : Option ℤ)
    (rawCycle : ℕ) (nearDue : Bool) (variance : ℤ)
    (h : created + secPerDay ≤ endDate) :
    ∃ t, generate_completion_date created due true endDate rawCycle nearDue variance = some t
      ∧ created + secPerDay ≤ t ∧ t ≤ endDate := by
  rw [generate_completion_date]
  simp only [Bool.true_eq_false, if_false]
  have hcyc1 : (1:ℤ) ≤ min (max 1 (rawCycle : ℤ)) 60 := le_min (le_max_left _ _) (by omega)
  set cycleDays : ℤ := min (max 1 (rawCycle : ℤ)) 60 with hcdef
  have hc1 : ¬ (created + cycleDays * secPerDay < created) := by
    simp only [secPerDay]
    omega
  rw [if_neg hc1]
  match due with
  | some d =>
    cases nearDue with
    | true =>
      simp only [if_pos rfl]
      refine ⟨_, rfl, ?_, ?_⟩
      · simp only [secPerDay] at *
        omega
      · exact min_le_right _ _
    | false =>
      simp only [Bool.false_eq_true, if_false]
      by_cases hend : endDate < created + cycleDays * secPerDay
      · rw [if_pos hend]
        exact ⟨endDate, rfl, h, le_refl _⟩
      · rw [if_neg hend]
        refine ⟨_, rfl, ?_, by omega⟩
        simp only [secPerDay] at *
        omega
  | none =>
    by_cases hend : endDate < created + cycleDays * secPerDay
    · rw [if_pos hend]
      exact ⟨endDate, rfl, h, le_refl _⟩
    · rw [if_neg hend]
      refine ⟨_, rfl, ?_, by omega⟩
      simp only [secPerDay] at *
      omega

/-- Witness for `completion_date_in_interval`: a task created at the epoch in
a run ending one day later, cycle-time path. -/
theorem completion_date_in_interval_witness :
    ((0:ℤ) + secPerDay ≤ 86400)
    ∧ ∃ t, generate_completion_date 0 none true 86400 1 false 0 = some t
        ∧ (0:ℤ) + secPerDay ≤ t ∧ t ≤ 86400 :=
  ⟨by decide, completion_date_in_interval 0 86400 none 1 false 0 (by decide)⟩

/-- The task dictionary built in `TaskGenerator.generate_tasks` /
`TaskGenerator.generate_subtasks` (`src/generators/tasks.py`).  Timestamps are
kept as integers rather than their `isoformat()` strings (the conversion is
injective and order-preserving, so nothing the claims speak about is lost). -/
structure TaskRec where
  task_id : String
  project_id : String
  section_id : String
  parent_task_id : Option String
  name : String
  description : String
  assignee_id : Option String
  due_date : Option ℤ
  due_time : Option ℤ
  created_at : ℤ
  completed : Bool
  completed_at : Option ℤ
  created_by : Option String
  priority : String
  deriving DecidableEq

/-- The per-task record built in the main loop of
`TaskGenerator.generate_tasks`: `completed` is the Bernoulli draw at the
completion rate of the project and `completed_at` comes from
`generate_completion_date` (same draw arguments as there). -/
def mkTask (id pid sid nm desc : String) (assignee : Option String)
    (due : Option ℤ) (created : ℤ) (completed : Bool) (endDate : ℤ)
    (rawCycle : ℕ) (nearDue : Bool) (variance : ℤ)
    (creator : Option String) (prio : String) : TaskRec :=
  { task_id := id, project_id := pid, section_id := sid, parent_task_id := none,
    name := nm, description := desc, assignee_id := assignee, due_date := due,
    due_time := none, created_at := created, completed := completed,
    completed_at := generate_completion_date created due completed endDate rawCycle nearDue variance,
    created_by := creator, priority := prio }

/-- The per-subtask record built in `TaskGenerator.generate_subtasks`:
`created_at = parent.created_at + randint(0,5) days` (`offDays`), most fields
are inherited from the parent, `completed_at` starts as `None` and is
overwritten with `created_at + randint(1,7) days` (`compDays`) when the
completion Bernoulli draw succeeded.  `nm` is the verb-template name
`template.format(task=parent.name.lower())`.  Note that the function receives
no run end date at all. -/
def mkSubtask (parent : TaskRec) (id nm : String) (offDays : ℤ)
    (completed : Bool) (compDays : ℤ) : TaskRec :=
  { task_id := id, project_id := parent.project_id, section_id := parent.section_id,
    parent_task_id := some parent.task_id, name := nm, description := "",
    assignee_id := parent.assignee_id, due_date := parent.due_date,
    due_time := none, created_at := parent.created_at + offDays * secPerDay,
    completed := completed,
    completed_at :=
      if completed then
        some (parent.created_at + offDays * secPerDay + compDays * secPerDay)
      else none,
    created_by := parent.created_by, priority := parent.priority }

/-- A parent task created exactly at the run end date (`created_at = 0`,
run end `0`) — reachable, since task creation timestamps go up to the end
date.  Used to exhibit subtasks escaping the run window. -/
def parentAtEnd : TaskRec :=
  { task_id := "t0", project_id := "p0", section_id := "s0", parent_task_id := none,
    name := "task", description := "", assignee_id := none, due_date := none,
    due_time := none, created_at := 0, completed := true, completed_at := some 0,
    created_by := none, priority := "normal" }

/-- C3 counterexample: A subtask of a parent created at the run end date
(end = 0) with creation offset draw 1 day gets `created_at` one day *after*
the run end (and, when completed with draw 1, `completed_at` two days after):
`generate_subtasks` never clamps to — indeed never receives — the end date. -/
theorem subtask_exceeds_end_date :
    (mkSubtask parentAtEnd "st" "review task" 1 true 1).created_at = 86400
    ∧ ¬ (mkSubtask parentAtEnd "st" "review task" 1 true 1).created_at ≤ 0
    ∧ (mkSubtask parentAtEnd "st" "review task" 1 true 1).completed_at = some 172800 := by
  refine ⟨rfl, by decide, rfl⟩

/-- C3 amended: Subtask timestamps are bounded *relative to the parent*:
`created_at` lies in `[parent.created_at, parent.created_at + 5 days]` and a
`completed_at` of a completed subtask lies in
`[created_at + 1 day, parent.created_at + 12 days]`; no upper bound by the
end date of the run is enforced (the end date is not even an input). -/
theorem subtask_time_bounds (parent : TaskRec) (id nm : String)
    (offDays : ℤ) (completed : Bool) (compDays : ℤ)
    (hoff : 0 ≤ offDays ∧ offDays ≤ 5) (hcomp : 1 ≤ compDays ∧ compDays ≤ 7) :
    parent.created_at ≤ (mkSubtask parent id nm offDays completed compDays).created_at
    ∧ (mkSubtask parent id nm offDays completed compDays).created_at
        ≤ parent.created_at + 5 * secPerDay
    ∧ ∀ c, (mkSubtask parent id nm offDays completed compDays).completed_at = some c →
        (mkSubtask parent id nm offDays completed compDays).created_at + secPerDay ≤ c
        ∧ c ≤ parent.created_at + 12 * secPerDay := by
  simp only [mkSubtask, secPerDay] at *
  refine ⟨by omega, by omega, ?_⟩
  intro c hc
  cases completed with
  | true =>
    simp only [if_pos rfl] at hc
    have := Option.some.inj hc
    omega
  | false =>
    simp only [Bool.false_eq_true, if_false] at hc
    exact absurd hc (by simp)

/-- Witness for `subtask_time_bounds`: parent at the epoch, offset 3 days,
completed with completion draw 2 days. -/
theorem subtask_time_bounds_witness :
    (((0:ℤ) ≤ 3 ∧ (3:ℤ) ≤ 5) ∧ ((1:ℤ) ≤ 2 ∧ (2:ℤ) ≤ 7))
    ∧ (parentAtEnd.created_at ≤ (mkSubtask parentAtEnd "s1" "n" 3 true 2).created_at
       ∧ (mkSubtask parentAtEnd "s1" "n" 3 true 2).created_at
           ≤ parentAtEnd.created_at + 5 * secPerDay
       ∧ ∀ c, (mkSubtask parentAtEnd "s1" "n" 3 true 2).completed_at = some c →
           (mkSubtask parentAtEnd "s1" "n" 3 true 2).created_at + secPerDay ≤ c
           ∧ c ≤ parentAtEnd.created_at + 12 * secPerDay) :=
  ⟨⟨⟨by decide, by decide⟩, ⟨by decide, by decide⟩⟩,
    subtask_time_bounds parentAtEnd "s1" "n" 3 true 2 ⟨by decide, by decide⟩
      ⟨by decide, by decide⟩⟩

/-- C8: For every generated task and subtask, the `completed` flag is true
iff `completed_at` is non-null: `generate_completion_date` returns `None`
exactly on the not-completed path, and `generate_subtasks` sets
`completed_at` exactly under its completion draw. -/
theorem completed_iff_completed_at (id pid sid nm desc : String)
    (assignee : Option String) (due : Option ℤ) (created : ℤ) (completed : Bool)
    (endDate : ℤ) (rawCycle : ℕ) (nearDue : Bool) (variance : ℤ)
    (creator : Option String) (prio : String)
    (parent : TaskRec) (sid2 snm : String) (offDays : ℤ) (scompleted : Bool)
    (compDays : ℤ) :
    ((mkTask id pid sid nm desc assignee due created completed endDate rawCycle
        nearDue variance creator prio).completed = true
      ↔ (mkTask id pid sid nm desc assignee due created completed endDate rawCycle
          nearDue variance creator prio).completed_at.isSome = true)
    ∧ ((mkSubtask parent sid2 snm offDays scompleted compDays).completed = true
      ↔ (mkSubtask parent sid2 snm offDays scompleted compDays).completed_at.isSome = true) := by
  constructor
  · simp only [mkTask, generate_completion_date]
    cases completed with
    | false => simp
    | true =>
      simp only [Bool.true_eq_false, if_false]
      cases due with
      | none => simp
      | some d =>
        cases nearDue with
        | true => simp
        | false => simp
  · simp only [mkSubtask]
    cases scompleted with
    | false => simp
    | true => simp

/-- Witness for `completed_iff_completed_at`: a completed task and a
completed subtask at concrete draws. -/
theorem completed_iff_completed_at_witness :
    ((mkTask "t1" "p1" "s1" "nm" "" none none 0 true 86400 1 false 0
        none "normal").completed = true
      ↔ (mkTask "t1" "p1" "s1" "nm" "" none none 0 true 86400 1 false 0
          none "normal").completed_at.isSome = true)
    ∧ ((mkSubtask parentAtEnd "t2" "nm2" 1 true 1).completed = true
      ↔ (mkSubtask parentAtEnd "t2" "nm2" 1 true 1).completed_at.isSome = true) :=
  completed_iff_completed_at "t1" "p1" "s1" "nm" "" none none 0 true 86400 1
    false 0 none "normal" parentAtEnd "t2" "nm2" 1 true 1

/-- The five value slots of a row of `custom_field_values`
(`src/generators/custom_fields.py`).  `number_value` holds the
`random.uniform(1, 1000)` draw (modelled as a rational), `multi_enum_values`
holds the sampled option list (the source stores its `json.dumps`; the
encoding is irrelevant to nullability and slot type). -/
structure CFValue where
  text_value : Option String
  number_value : Option ℚ
  enum_value : Option String
  date_value : Option String
  multi_enum_values : Option (List String)
  deriving DecidableEq

/-- A value entry as initialised in `generate_custom_field_values`: all five
slots `None`. -/
def emptyCFValue : CFValue := ⟨none, none, none, none, none⟩

/-- Python truthiness of a nullable string (`if task.get("due_date"):`):
false for `None` and for the empty string. -/
def truthyStr (o : Option String) : Bool :=
  match o with
  | some s => !s.isEmpty
  | none => false

/-- The slot-filling `if/elif` chain of
`CustomFieldGenerator.generate_custom_field_values` for one (task, field)
pair that passed the 70% fill draw.  `enumOptions` is the decoded
`enum_options` column (`json.loads`/`None`); the `if enum_options:` guards are
Python-truthy, so `None` *and* the empty list skip the branch.  `num` models
`random.uniform(1, 1000)`, `pick` models `random.choice(enum_options)` and
`selected` models `random.sample(enum_options, randint(1, min(3, len)))`.
Note the entry is appended to the output in every case — also when no branch
fired and all five slots are still `None`. -/
def makeCFValue (fieldType : String) (enumOptions : Option (List String))
    (taskDue : Option String) (num : ℚ) (pick : String)
    (selected : List String) : CFValue :=
  if fieldType = "text" then
    { emptyCFValue with text_value := some "Sample text value" }
  else if fieldType = "number" then
    { emptyCFValue with number_value := some num }
  else if fieldType = "enum" then
    match enumOptions with
    | some (_ :: _) => { emptyCFValue with enum_value := some pick }
    | _ => emptyCFValue
  else if fieldType = "date" then
    if truthyStr taskDue then { emptyCFValue with date_value := taskDue }
    else emptyCFValue
  else if fieldType = "multi_enum" then
    match enumOptions with
    | some (_ :: _) => { emptyCFValue with multi_enum_values := some selected }
    | _ => emptyCFValue
  else emptyCFValue

/-- How many of the five slots are non-null. -/
def populatedCount (v : CFValue) : ℕ :=
  (if v.text_value.isSome then 1 else 0)
  + (if v.number_value.isSome then 1 else 0)
  + (if v.enum_value.isSome then 1 else 0)
  + (if v.date_value.isSome then 1 else 0)
  + (if v.multi_enum_values.isSome then 1 else 0)

/-- The slot corresponding to the `field_type` of the definition is the populated
one. -/
def slotMatchesType (fieldType : String) (v : CFValue) : Bool :=
  if fieldType = "text" then v.text_value.isSome
  else if fieldType = "number" then v.number_value.isSome
  else if fieldType = "enum" then v.enum_value.isSome
  else if fieldType = "date" then v.date_value.isSome
  else if fieldType = "multi_enum" then v.multi_enum_values.isSome
  else false

/-- Embedding of `CustomFieldGenerator.FIELD_TEMPLATES`: the catalog every generated
`CustomFieldDefinition` is sampled from — `(name, field_type, enum_options)`. -/
def FIELD_TEMPLATES : List (String × String × Option (List String)) :=
  [("Priority", "enum", some ["Low", "Medium", "High", "Critical"]),
   ("Status", "enum", some ["Not Started", "In Progress", "Blocked", "Done"]),
   ("Effort", "enum", some ["XS", "S", "M", "L", "XL"]),
   ("Sprint", "enum", some ["Sprint 1", "Sprint 2", "Sprint 3", "Sprint 4", "Backlog"]),
   ("Budget", "number", none),
   ("Target Date", "date", none),
   ("Owner", "text", none),
   ("Category", "multi_enum", some ["Feature", "Bug", "Enhancement", "Documentation", "Research"])]

/-- C2 counterexample: A `date`-typed field (the catalog entry
`Target Date`) on a task without a due date produces a value row whose five
slots are *all* null — the row is still appended, refuting \"exactly one of
the five value slots is non-null\". -/
theorem cfvalue_all_null_for_dateless_task :
    makeCFValue "date" none none 0 "" [] = emptyCFValue
    ∧ ¬ (populatedCount (makeCFValue "date" none none 0 "" []) = 1
         ∧ slotMatchesType "date" (makeCFValue "date" none none 0 "" []) = true) := by
  exact ⟨by decide, by decide⟩

/-- C2 amended: For every field definition drawn from the catalog and
every emitted value row: if the field type is `date` and the task has no
(non-empty) due date, all five slots are null; in every other case exactly
one slot is non-null, and it is the slot matching the `field_type` of the
definition. -/
theorem cfvalue_slots (t : String × String × Option (List String))
    (ht : t ∈ FIELD_TEMPLATES) (taskDue : Option String) (num : ℚ)
    (pick : String) (selected : List String) :
    (t.2.1 = "date" ∧ truthyStr taskDue = false →
      makeCFValue t.2.1 t.2.2 taskDue num pick selected = emptyCFValue)
    ∧ (t.2.1 = "date" → truthyStr taskDue = true →
      populatedCount (makeCFValue t.2.1 t.2.2 taskDue num pick selected) = 1
      ∧ slotMatchesType t.2.1 (makeCFValue t.2.1 t.2.2 taskDue num pick selected) = true)
    ∧ (t.2.1 ≠ "date" →
      populatedCount (makeCFValue t.2.1 t.2.2 taskDue num pick selected) = 1
      ∧ slotMatchesType t.2.1 (makeCFValue t.2.1 t.2.2 taskDue num pick selected) = true) := by
  simp only [FIELD_TEMPLATES, List.mem_cons, List.not_mem_nil, or_false] at ht
  rcases ht with h | h | h | h | h | h | h | h <;> subst h <;>
    refine ⟨?_, ?_, ?_⟩ <;>
    simp only [makeCFValue, populatedCount, slotMatchesType, emptyCFValue, truthyStr] <;>
    intros <;> simp_all <;>
    cases taskDue <;> simp_all [truthyStr]

/-- Witness for `cfvalue_slots` at the catalog entry `Owner` (a text template). -/
theorem cfvalue_slots_witness :
    (("Owner", "text", (none : Option (List String))) ∈ FIELD_TEMPLATES)
    ∧ ((("Owner", "text", (none : Option (List String))).2.1 = "date"
          ∧ truthyStr none = false →
        makeCFValue "text" none none 0 "x" [] = emptyCFValue)
      ∧ (("Owner", "text", (none : Option (List String))).2.1 = "date" →
          truthyStr none = true →
        populatedCount (makeCFValue "text" none none 0 "x" []) = 1
        ∧ slotMatchesType "text" (makeCFValue "text" none none 0 "x" []) = true)
      ∧ (("Owner", "text", (none : Option (List String))).2.1 ≠ "date" →
        populatedCount (makeCFValue "text" none none 0 "x" []) = 1
        ∧ slotMatchesType "text" (makeCFValue "text" none none 0 "x" []) = true)) :=
  ⟨by decide, cfvalue_slots ("Owner", "text", none) (by decide) none 0 "x" []⟩

/-- Embedding of `src/main.py`, `insert_data`: `if not data: return` (empty collections
write nothing), otherwise one bulk insert into `table_name`.  We track the
sequence of tables that received rows. -/
def insertData (tableName : String) (rows : ℕ) (written : List String) : List String :=
  if rows = 0 then written else written ++ [tableName]

/-- The prefix of `main()` (`src/main.py`) that the configuration-error claim
is about, per configuration `(org_size, num_teams, start_date, end_date)`:

1. the organization row is built and inserted (no validation precedes it);
2. `generate_users` draws one `random_date` per user, so it raises
   `ValueError` (from `randrange`) iff `org_size > 0` and
   `(end - start).days < 1`;
3. `generate_teams` likewise draws one `random_date` per team;
4. `generate_team_memberships` samples `min(team_size, len(users))` users per
   team (`random.sample` with a clamped count never raises) — `memberSizes`
   are the per-team size draws.

The result is the list of tables written so far plus the first uncaught
exception, if any (`none` = this prefix completed normally). -/
def runUpToMemberships (orgSize numTeams : ℕ) (startDate endDate : ℤ)
    (memberSizes : List ℕ) : List String × Option String :=
  if 0 < orgSize ∧ daysBetween startDate endDate < 1 then
    (insertData "organizations" 1 [], some "ValueError: empty range for randrange")
  else if 0 < numTeams ∧ daysBetween startDate endDate < 1 then
    (insertData "users" orgSize (insertData "organizations" 1 []),
     some "ValueError: empty range for randrange")
  else
    (insertData "team_memberships"
      ((memberSizes.take numTeams).foldl (fun a sz => a + min sz orgSize) 0)
      (insertData "teams" numTeams
        (insertData "users" orgSize (insertData "organizations" 1 []))),
     none)

theorem daysBetween_lt_one_of_le {s e : ℤ} (h : e ≤ s) : daysBetween s e < 1 := by
  rw [daysBetween, secPerDay, Int.fdiv_eq_ediv _ (by decide : (0:ℤ) ≤ 86400)]
  omega

theorem one_le_daysBetween {s e : ℤ} (h : secPerDay ≤ e - s) : 1 ≤ daysBetween s e := by
  rw [daysBetween, secPerDay, Int.fdiv_eq_ediv _ (by decide : (0:ℤ) ≤ 86400)]
  rw [secPerDay] at h
  omega

/-- C4 counterexample: With `end = start` (end not after start), one user
and one team, the run does abort (uncaught `ValueError` in user generation) —
but only *after* the organization row has been inserted, refuting
\"aborts before any rows are written to the store\". -/
theorem run_aborts_after_organization_write :
    (runUpToMemberships 1 1 0 0 [5]).2.isSome = true
    ∧ (runUpToMemberships 1 1 0 0 [5]).1 = ["organizations"] := by
  exact ⟨by decide, by decide⟩

/-- C4 amended: `main()` performs no configuration validation.  When the
end date is not after the start date (and at least one user is configured)
the run is indeed fatal — `randrange` raises inside user generation — but the
organization row has already been written.  When there are zero users and a
non-empty team (with a valid date range), the run does not abort there at
all: membership generation samples `min(size, 0) = 0` users per team and
returns an empty collection, which is never written. -/
theorem membership_and_dates_config_errors (orgSize numTeams : ℕ) (startDate endDate : ℤ)
    (memberSizes : List ℕ) :
    (endDate ≤ startDate → 0 < orgSize →
      (runUpToMemberships orgSize numTeams startDate endDate memberSizes).2.isSome = true
      ∧ (runUpToMemberships orgSize numTeams startDate endDate memberSizes).1 = ["organizations"])
    ∧ (orgSize = 0 → secPerDay ≤ endDate - startDate →
      (runUpToMemberships orgSize numTeams startDate endDate memberSizes).2 = none
      ∧ "team_memberships" ∉ (runUpToMemberships orgSize numTeams startDate endDate memberSizes).1) := by
  constructor
  · intro hdates horg
    have hlt := daysBetween_lt_one_of_le hdates
    rw [runUpToMemberships, if_pos ⟨horg, hlt⟩]
    exact ⟨rfl, by simp [insertData]⟩
  · intro horg hdates
    have hge := one_le_daysBetween hdates
    subst horg
    rw [runUpToMemberships, if_neg (by simp), if_neg (by omega)]
    have hmem : (memberSizes.take numTeams).foldl (fun a sz => a + min sz 0) 0 = 0 := by
      generalize memberSizes.take numTeams = l
      induction l with
      | nil => rfl
      | cons x xs ihx => simp [ihx]
    refine ⟨rfl, ?_⟩
    rw [hmem]
    cases numTeams with
    | zero => simp [insertData]
    | succ n => simp [insertData]

/-- Witness for `membership_and_dates_config_errors`: part 1 at `(1 user, 1 team,
start = end = 0)`; part 2 at `(0 users, 1 team, end − start = 1 day)`. -/
theorem membership_and_dates_config_errors_witness :
    (((0:ℤ) ≤ 0 ∧ 0 < 1)
      ∧ ((runUpToMemberships 1 1 0 0 [5]).2.isSome = true
        ∧ (runUpToMemberships 1 1 0 0 [5]).1 = ["organizations"]))
    ∧ ((0 = 0 ∧ secPerDay ≤ (86400:ℤ) - 0)
      ∧ ((runUpToMemberships 0 1 0 86400 [5]).2 = none
        ∧ "team_memberships" ∉ (runUpToMemberships 0 1 0 86400 [5]).1)) :=
  ⟨⟨⟨le_refl 0, Nat.zero_lt_one⟩,
      (membership_and_dates_config_errors 1 1 0 0 [5]).1 (le_refl 0) Nat.zero_lt_one⟩,
    ⟨⟨rfl, by decide⟩,
      (membership_and_dates_config_errors 0 1 0 86400 [5]).2 rfl (by decide)⟩⟩

/-- The hexadecimal digits (most significant first) of a version-4 UUID built
from 128 random bits `r`, after `str(uuid).replace('-','')`: digit 12 is the
version nibble `4`, digit 16 is the variant nibble (two high bits forced to
`10`, i.e. `8 + (nibble mod 4)`), every other digit is a raw random nibble. -/
def uuid4HexDigit (r : ℕ) (i : ℕ) : ℕ :=
  if i = 12 then 4
  else if i = 16 then r / 16 ^ (31 - i) % 16 % 4 + 8
  else r / 16 ^ (31 - i) % 16

/-- Embedding of `src/utils/helpers.py`, `generate_id()`:
`str(uuid.uuid4()).replace('-', '')` — 32 lowercase hex characters of a
version-4 UUID.  `uuid.uuid4()` reads 128 bits `r` from the entropy source of the *operating
system* (`os.urandom`); it does not consult the `random`
module and is therefore unaffected by `random.seed`. -/
def generate_id (r : ℕ) : String :=
  String.mk ((List.range 32).map fun i => Nat.digitChar (uuid4HexDigit r i))

/-- The `organizations` collection built at the top of `main()`
(`src/main.py`): one row `(organization_id, name, domain, created_at)` with
`organization_id = generate_id()`.  `seed` is the value passed to
`random.seed` at process start; `osEntropy` is the 128-bit draw `uuid.uuid4`
takes from the OS.  The row provably depends on `osEntropy` and not on
`seed`. -/
def organizationsTable (seed : ℕ) (osEntropy : ℕ) (startDate : ℤ) :
    List (String × String × String × ℤ) :=
  let _ := seed
  [(generate_id osEntropy, "Acme Corporation", "acme.com", startDate)]

/-- C1: Two complete runs with the same seed (42) and configuration do
*not* produce identical collections: the very first generated collection
already differs whenever the OS entropy feeding `uuid.uuid4` differs between
the runs (which `random.seed(42)` does nothing to prevent) — here OS draws
`0` and `1` give different `organization_id`s.  The same applies to every
id-bearing row, and to completion dates via the equally unseeded
`np.random.lognormal`. -/
theorem run_output_depends_on_unseeded_entropy :
    organizationsTable 42 0 0 ≠ organizationsTable 42 1 0 := by
  decide

/-- The Python decimal rendering `str(n)` of a natural number, as used by the
f-string `f"{first_name}.{last_name}{suffix}@{domain}"` in
`UserGenerator.generate_users`: the base-10 digits, most significant first
(`Nat.digitChar` maps 0–9 to `'0'`–`'9'`). -/
def pyNatStr (n : ℕ) : String :=
  if n = 0 then "0" else String.mk (((Nat.digits 10 n).map Nat.digitChar).reverse)

theorem digitChar_inj_lt10 (a b : ℕ) (ha : a < 10) (hb : b < 10)
    (h : Nat.digitChar a = Nat.digitChar b) : a = b := by
  have key : ∀ x y : Fin 10, Nat.digitChar x.val = Nat.digitChar y.val → x = y := by decide
  exact congrArg Fin.val (key ⟨a, ha⟩ ⟨b, hb⟩ h)

theorem map_digitChar_inj :
    ∀ (l₁ l₂ : List ℕ), (∀ x ∈ l₁, x < 10) → (∀ x ∈ l₂, x < 10) →
      l₁.map Nat.digitChar = l₂.map Nat.digitChar → l₁ = l₂
  | [], [], _, _, _ => rfl
  | [], _ :: _, _, _, h => by simp at h
  | _ :: _, [], _, _, h => by simp at h
  | a :: as, b :: bs, h₁, h₂, h => by
    simp only [List.map_cons, List.cons.injEq] at h
    have hab : a = b := digitChar_inj_lt10 a b (h₁ a (by simp)) (h₂ b (by simp)) h.1
    have hrest : as = bs :=
      map_digitChar_inj as bs (fun x hx => h₁ x (by simp [hx]))
        (fun x hx => h₂ x (by simp [hx])) h.2
    rw [hab, hrest]

theorem pyNatStr_injective : Function.Injective pyNatStr := by
  have singleton_zero : ∀ n : ℕ, n ≠ 0 →
      ((Nat.digits 10 n).map Nat.digitChar).reverse ≠ ['0'] := by
    intro n hn hc
    have hmap : (Nat.digits 10 n).map Nat.digitChar = ['0'] := by
      have := congrArg List.reverse hc
      simpa using this
    cases hdig : Nat.digits 10 n with
    | nil => rw [hdig] at hmap; simp at hmap
    | cons d ds =>
      rw [hdig] at hmap
      simp only [List.map_cons, List.cons.injEq] at hmap
      have hds : ds = [] := List.map_eq_nil_iff.mp hmap.2
      have hd10 : d < 10 := Nat.digits_lt_base (by norm_num) (by rw [hdig]; simp)
      have hd0 : d = 0 :=
        digitChar_inj_lt10 d 0 hd10 (by norm_num) (by rw [hmap.1]; rfl)
      have h0 : n = 0 := by
        rw [← Nat.ofDigits_digits 10 n, hdig, hds, hd0]
        simp [Nat.ofDigits]
      exact hn h0
  intro m n h
  by_cases hm : m = 0 <;> by_cases hn : n = 0
  · rw [hm, hn]
  · exfalso
    rw [pyNatStr, if_pos hm, pyNatStr, if_neg hn] at h
    exact singleton_zero n hn (congrArg String.data h).symm
  · exfalso
    rw [pyNatStr, if_neg hm, pyNatStr, if_pos hn] at h
    exact singleton_zero m hm (congrArg String.data h)
  · rw [pyNatStr, if_neg hm, pyNatStr, if_neg hn] at h
    have hdata := congrArg String.data h
    have hrev := List.reverse_injective hdata
    have hdig : Nat.digits 10 m = Nat.digits 10 n :=
      map_digitChar_inj _ _ (fun x hx => Nat.digits_lt_base (by norm_num) hx)
        (fun x hx => Nat.digits_lt_base (by norm_num) hx) hrev
    exact Nat.digits.injective 10 hdig

/-- The sequence of email candidates `UserGenerator.generate_users` tries for
one user: `first.last@domain` first, then `first.last2@domain`,
`first.last3@domain`, … (the loop increments `suffix` starting from 2). -/
def emailCand (first last domain : String) : ℕ → String
  | 0 => first ++ "." ++ last ++ "@" ++ domain
  | k + 1 => first ++ "." ++ last ++ pyNatStr (k + 2) ++ "@" ++ domain

theorem emailCand_succ_inj (f l d : String) (j k : ℕ)
    (h : emailCand f l d (j + 1) = emailCand f l d (k + 1)) : j = k := by
  simp only [emailCand] at h
  have hd := congrArg String.data h
  simp only [String.data_append] at hd
  have hd1 := List.append_cancel_right (List.append_cancel_right hd)
  have hd2 := List.append_cancel_left hd1
  have : pyNatStr (j + 2) = pyNatStr (k + 2) := String.ext hd2
  have := pyNatStr_injective this
  omega

theorem emailCand_exists_free (used : List String) (f l d : String) :
    ∃ k, emailCand f l d k ∉ used := by
  by_contra hall
  push_neg at hall
  have hinj : Function.Injective
      (fun i : Fin (used.length + 1) => emailCand f l d (i.val + 1)) := by
    intro i j hij
    exact Fin.ext (emailCand_succ_inj f l d i.val j.val hij)
  have hcard : used.length + 1 ≤ used.toFinset.card := by
    have hmaps : ∀ i : Fin (used.length + 1), i ∈ Finset.univ →
        emailCand f l d (i.val + 1) ∈ used.toFinset :=
      fun i _ => List.mem_toFinset.mpr (hall _)
    have := Finset.card_le_card_of_injOn
      (fun i : Fin (used.length + 1) => emailCand f l d (i.val + 1)) hmaps hinj.injOn
    simpa using this
  have hle : used.toFinset.card ≤ used.length := List.toFinset_card_le used
  omega

/-- The `while email in used_emails` deduplication loop of
`UserGenerator.generate_users`: it returns the *first* candidate not yet in
`used_emails` (candidate 0 is `first.last@domain`, candidate `k+1` carries
numeric suffix `k+2`). -/
def pickEmail (used : List String) (f l d : String) : String :=
  emailCand f l d (Nat.find (emailCand_exists_free used f l d))

theorem pickEmail_not_mem (used : List String) (f l d : String) :
    pickEmail used f l d ∉ used :=
  Nat.find_spec (emailCand_exists_free used f l d)

/-- The email-assignment pass of `UserGenerator.generate_users`: one email per
user, each chosen by the deduplication loop against the `used_emails` set
accumulated so far (`names` are the lowercased `(first, last)` name parts in
user order; the other per-user fields do not influence emails). -/
def genEmails (domain : String) : List (String × String) → List String → List String
  | [], _ => []
  | (f, l) :: rest, used =>
      pickEmail used f l domain :: genEmails domain rest (pickEmail used f l domain :: used)

theorem genEmails_nodup_aux (domain : String) :
    ∀ (names : List (String × String)) (used : List String),
      (genEmails domain names used).Nodup
      ∧ ∀ e ∈ genEmails domain names used, e ∉ used
  | [], _ => ⟨List.nodup_nil, by simp [genEmails]⟩
  | (f, l) :: rest, used => by
    obtain ⟨ih1, ih2⟩ :=
      genEmails_nodup_aux domain rest (pickEmail used f l domain :: used)
    simp only [genEmails]
    refine ⟨List.nodup_cons.mpr ⟨fun hmem => ih2 _ hmem (List.mem_cons_self _ _), ih1⟩, ?_⟩
    intro e he
    rcases List.mem_cons.mp he with rfl | hmem
    · exact pickEmail_not_mem used f l domain
    · exact fun hu => ih2 e hmem (List.mem_cons_of_mem _ hu)

/-- C9: For every user count and name sequence, the emails produced in one
run of `UserGenerator.generate_users` are pairwise distinct: the email of each user
is the first free candidate `first.last@acme.com`,
`first.last2@acme.com`, … against the set of all previously assigned emails,
so no two users can receive the same address. -/
theorem user_emails_pairwise_distinct (names : List (String × String)) :
    (genEmails "acme.com" names []).Nodup :=
  (genEmails_nodup_aux "acme.com" names []).1

/-- Witness for `user_emails_pairwise_distinct` on a name list with a
collision (two users named john smith). -/
theorem user_emails_pairwise_distinct_witness :
    (genEmails "acme.com" [("john", "smith"), ("john", "smith")] []).Nodup :=
  user_emails_pairwise_distinct [("john", "smith"), ("john", "smith")]

end AsanaSeed
